import Mathlib

/-!
Verification of the clusterctl manifest-transformation pipeline and
inventory consistency engine.

The inventory part (`listFilter`, `Validate`, `Create`,
`GetDefaultProviderName` / `Version` / `Namespace`) is a shallow embedding of
`cmd/clusterctl/pkg/client/cluster/inventory.go`.

The components part (`inspectVariables`, `replaceVariables`,
`inspectTargetNamespace`, `fixRBAC`, `inspectWatchNamespace`,
`fixWatchNamespace`) embeds functions of
`cmd/clusterctl/pkg/client/repository/components.go`, whose implementation is
not among the sources; those definitions are modelled from the specification
(sections 4.2-4.5) and from the expected outputs of the in-repository test
file `components_test.go`.
-/

set_option linter.unusedVariables false

deriving instance DecidableEq for Except

/-! ## Data model: provider inventory records -/

/-- A provider inventory record (`clusterctlv1.Provider`): metadata name and
namespace, provider type, version, watched namespace, and the
optimistic-concurrency token (`metadata.resourceVersion`). -/
structure Provider where
  name : String
  ns : String
  type : String
  version : String
  watchedNamespace : String
  resourceVersion : String
  deriving DecidableEq, Repr, Inhabited

/-- Filtering options of `inventoryClient.list`. An empty field means the
corresponding filter is skipped. -/
structure ListOptions where
  name : String
  ns : String
  type : String
  deriving DecidableEq, Repr, Inhabited

/-- `inventoryClient.list`: keeps the items that pass every non-empty filter
(the Go loop `continue`s on a mismatch of a non-empty option). -/
def listFilter (options : ListOptions) (items : List Provider) : List Provider :=
  items.filter fun i =>
    (options.name == "" || i.name == options.name) &&
    (options.ns == "" || i.ns == options.ns) &&
    (options.type == "" || i.type == options.type)

/-- Business-rule rejections of `inventoryClient.Validate`; the first
constructor is the "already an instance in that namespace" error, the second
covers both "watching namespaces already controlled" error returns. -/
inductive InventoryError where
  | duplicateInstall
  | conflictingScope
  deriving DecidableEq, Repr

/-- `inventoryClient.Validate`: lists the instances with the candidate's name,
accepts when none exist, rejects a same-namespace instance, then rejects
watched-namespace conflicts (a global candidate, or an instance that is global
or watches the candidate's namespace). -/
def Validate (m : Provider) (items : List Provider) : Except InventoryError Unit :=
  let instances := listFilter { name := m.name, ns := "", type := "" } items
  if instances.isEmpty then .ok ()
  else if instances.any (fun i => i.ns == m.ns) then .error .duplicateInstall
  else if m.watchedNamespace == "" then .error .conflictingScope
  else if instances.any (fun i => i.watchedNamespace == "" || m.watchedNamespace == i.watchedNamespace)
    then .error .conflictingScope
  else .ok ()

/-- The watched-namespace overlap relation of the specification: two scopes
overlap when they are equal or either one is the empty string (global). -/
def scopesOverlap (a b : String) : Bool :=
  a == b || a == "" || b == ""

/-- The operation `inventoryClient.Create` submits to the cluster client. -/
inductive ClusterOp where
  | createdOp (p : Provider)
  | updatedOp (p : Provider)
  deriving DecidableEq, Repr

/-- Lookup of the current provider object by (namespace, name), as done by the
cluster client `Get` inside `Create`. -/
def storeGet (store : List Provider) (ns name : String) : Option Provider :=
  store.find? fun p => p.ns == ns && p.name == name

/-- `inventoryClient.Create`, with the external cluster modelled as a list of
records keyed by (namespace, name). The Go code takes the deep copy `c` of the
argument `m` BEFORE the branch, then in the update branch assigns
`m.ResourceVersion = currentProvider.ResourceVersion` on the local `m` only:
the submitted object is the earlier copy `c`, so the assignment is dead code.
The embedding mirrors this placement. -/
def Create (m : Provider) (store : List Provider) : ClusterOp × List Provider :=
  match storeGet store m.ns m.name with
  | none => (.createdOp m, store ++ [m])
  | some currentProvider =>
    let c := m
    let _mAfterAssign := { m with resourceVersion := currentProvider.resourceVersion }
    (.updatedOp c, store.map fun p => if p.ns == m.ns && p.name == m.name then c else p)

/-- Helper shared by the three default resolvers: the single element of the
set of distinct values, or the empty string when the set has zero or at least
two elements (`sets.NewString` + `Len() == 1`). -/
def uniqueValue (vals : List String) : String :=
  match vals.dedup with
  | [v] => v
  | _ => ""

/-- `inventoryClient.GetDefaultProviderName`: groups the providers of the
given type by name and answers only when the grouping is a singleton. -/
def GetDefaultProviderName (items : List Provider) (providerType : String) : String :=
  uniqueValue ((listFilter { name := "", ns := "", type := providerType } items).map (fun p => p.name))

/-- `inventoryClient.GetDefaultProviderVersion`: groups the instances of the
given provider by version and answers only when the grouping is a singleton. -/
def GetDefaultProviderVersion (items : List Provider) (provider : String) : String :=
  uniqueValue ((listFilter { name := provider, ns := "", type := "" } items).map (fun p => p.version))

/-- `inventoryClient.GetDefaultProviderNamespace`: groups the instances of the
given provider by namespace and answers only when the grouping is a
singleton. -/
def GetDefaultProviderNamespace (items : List Provider) (provider : String) : String :=
  uniqueValue ((listFilter { name := provider, ns := "", type := "" } items).map (fun p => p.ns))

/-! ## Inventory lemmas -/

theorem mem_listFilterName (m : Provider) (items : List Provider) (i : Provider)
    (h : m.name ≠ "") :
    i ∈ listFilter { name := m.name, ns := "", type := "" } items ↔
      i ∈ items ∧ i.name = m.name := by
  simp [listFilter, List.mem_filter, beq_iff_eq, h]

theorem mem_listFilterName_of (m : Provider) (items : List Provider) (i : Provider)
    (hmem : i ∈ items) (hname : i.name = m.name) :
    i ∈ listFilter { name := m.name, ns := "", type := "" } items := by
  simp [listFilter, List.mem_filter, beq_iff_eq, hmem, hname]

/-- C1 (counterexample): the overlap rule is not enforced across records of a
different Name: the candidate "a" watching "w" overlaps the existing record
"b" watching the same "w", yet `Validate` accepts it. -/
theorem validate_ignores_other_names_cex :
    scopesOverlap "w" "w" = true ∧
    ("a" : String) ≠ "b" ∧
    Validate
      { name := "a", ns := "n1", type := "t", version := "v1",
        watchedNamespace := "w", resourceVersion := "" }
      [{ name := "b", ns := "n2", type := "t", version := "v1",
         watchedNamespace := "w", resourceVersion := "" }] = .ok () := by
  decide

/-- C1 (amended): if the candidate's WatchedNamespace overlaps the
WatchedNamespace of an existing record with the same Name, then `Validate`
rejects the candidate. -/
theorem validate_rejects_sameName_overlap (m : Provider) (items : List Provider)
    (i : Provider) (hmem : i ∈ items) (hname : i.name = m.name)
    (hov : scopesOverlap m.watchedNamespace i.watchedNamespace = true) :
    ∃ e, Validate m items = .error e := by
  have hmemI : i ∈ listFilter { name := m.name, ns := "", type := "" } items :=
    mem_listFilterName_of m items i hmem hname
  have hne : (listFilter { name := m.name, ns := "", type := "" } items).isEmpty = false := by
    rw [List.isEmpty_eq_false]
    exact fun hnil => by simp [hnil] at hmemI
  by_cases hdup :
      (listFilter { name := m.name, ns := "", type := "" } items).any (fun j => j.ns == m.ns) = true
  · exact ⟨.duplicateInstall, by simp [Validate, hne, hdup]⟩
  · rw [Bool.not_eq_true] at hdup
    by_cases hw : m.watchedNamespace = ""
    · exact ⟨.conflictingScope, by simp [Validate, hne, hdup, hw]⟩
    · have hov' : (i.watchedNamespace == "" || m.watchedNamespace == i.watchedNamespace) = true := by
        simp only [scopesOverlap, Bool.or_eq_true, beq_iff_eq] at hov
        rcases hov with (h1 | h2) | h3
        · simp [h1]
        · exact absurd h2 hw
        · simp [h3]
      have hany :
          (listFilter { name := m.name, ns := "", type := "" } items).any
            (fun j => j.watchedNamespace == "" || m.watchedNamespace == j.watchedNamespace) = true := by
        rw [List.any_eq_true]
        exact ⟨i, hmemI, hov'⟩
      exact ⟨.conflictingScope, by simp [Validate, hne, hdup, hw, hany]⟩

/-- C1 (witness for the amended theorem): a same-Name record watching the same
namespace makes `Validate` reject. -/
theorem validate_rejects_sameName_overlap_witness :
    ∃ e, Validate
      { name := "p1", ns := "n2", type := "t", version := "v1",
        watchedNamespace := "w", resourceVersion := "" }
      [{ name := "p1", ns := "n1", type := "t", version := "v1",
         watchedNamespace := "w", resourceVersion := "" }] = .error e :=
  validate_rejects_sameName_overlap _ _
    { name := "p1", ns := "n1", type := "t", version := "v1",
      watchedNamespace := "w", resourceVersion := "" }
    (by decide) (by decide) (by decide)

/-- C2 (counterexample): for a candidate whose Name is the empty string the
name filter of `list` is skipped, so `Validate` sees records of other names:
here no existing record shares the candidate's Name "" and yet the candidate
is rejected (same namespace as the "a" record). -/
theorem validate_empty_name_cex :
    (∀ i : Provider,
        i ∈ [({ name := "a", ns := "n", type := "t", version := "v1",
                watchedNamespace := "w", resourceVersion := "" } : Provider)] →
        i.name ≠ "") ∧
    Validate
      { name := "", ns := "n", type := "t", version := "v1",
        watchedNamespace := "w", resourceVersion := "" }
      [{ name := "a", ns := "n", type := "t", version := "v1",
         watchedNamespace := "w", resourceVersion := "" }] ≠ .ok () := by
  decide

/-- C2 (amended): for every candidate with a non-empty Name, `Validate` passes
when no existing record shares the Name; fails with the duplicate-install
error when a same-Name record shares the Namespace; otherwise fails with the
conflicting-scope error when the candidate's WatchedNamespace is empty or some
same-Name record's WatchedNamespace is empty or equal to the candidate's; and
passes otherwise. -/
theorem validate_characterization (m : Provider) (items : List Provider)
    (h : m.name ≠ "") :
    ((∀ i ∈ items, i.name ≠ m.name) → Validate m items = .ok ()) ∧
    ((∃ i ∈ items, i.name = m.name ∧ i.ns = m.ns) →
      Validate m items = .error .duplicateInstall) ∧
    ((∃ i ∈ items, i.name = m.name) →
      (∀ i ∈ items, i.name = m.name → i.ns ≠ m.ns) →
      (m.watchedNamespace = "" ∨
        ∃ i ∈ items, i.name = m.name ∧
          (i.watchedNamespace = "" ∨ i.watchedNamespace = m.watchedNamespace)) →
      Validate m items = .error .conflictingScope) ∧
    ((∃ i ∈ items, i.name = m.name) →
      (∀ i ∈ items, i.name = m.name → i.ns ≠ m.ns) →
      m.watchedNamespace ≠ "" →
      (∀ i ∈ items, i.name = m.name →
        i.watchedNamespace ≠ "" ∧ i.watchedNamespace ≠ m.watchedNamespace) →
      Validate m items = .ok ()) := by
  have hmem : ∀ i : Provider,
      i ∈ listFilter { name := m.name, ns := "", type := "" } items ↔
        i ∈ items ∧ i.name = m.name := fun i => mem_listFilterName m items i h
  refine ⟨?_, ?_, ?_, ?_⟩
  · intro hnone
    have hempty : (listFilter { name := m.name, ns := "", type := "" } items).isEmpty = true := by
      rw [List.isEmpty_iff, List.eq_nil_iff_forall_not_mem]
      intro i hi
      exact hnone i ((hmem i).mp hi).1 ((hmem i).mp hi).2
    simp [Validate, hempty]
  · rintro ⟨i, hi, hiname, hins⟩
    have hmemI : i ∈ listFilter { name := m.name, ns := "", type := "" } items :=
      (hmem i).mpr ⟨hi, hiname⟩
    have hempty : (listFilter { name := m.name, ns := "", type := "" } items).isEmpty = false := by
      rw [List.isEmpty_eq_false]
      exact fun hnil => by simp [hnil] at hmemI
    have hany : (listFilter { name := m.name, ns := "", type := "" } items).any
        (fun j => j.ns == m.ns) = true := by
      rw [List.any_eq_true]
      exact ⟨i, hmemI, by simp [hins]⟩
    simp [Validate, hempty, hany]
  · rintro ⟨i, hi, hiname⟩ hnodup hscope
    have hmemI : i ∈ listFilter { name := m.name, ns := "", type := "" } items :=
      (hmem i).mpr ⟨hi, hiname⟩
    have hempty : (listFilter { name := m.name, ns := "", type := "" } items).isEmpty = false := by
      rw [List.isEmpty_eq_false]
      exact fun hnil => by simp [hnil] at hmemI
    have hany : (listFilter { name := m.name, ns := "", type := "" } items).any
        (fun j => j.ns == m.ns) = false := by
      rw [Bool.eq_false_iff, ne_eq, List.any_eq_true]
      rintro ⟨j, hj, hjns⟩
      rw [beq_iff_eq] at hjns
      exact hnodup j ((hmem j).mp hj).1 ((hmem j).mp hj).2 hjns
    by_cases hw : m.watchedNamespace = ""
    · simp [Validate, hempty, hany, hw]
    · rcases hscope with hw' | ⟨j, hj, hjname, hjw⟩
      · exact absurd hw' hw
      · have hmemJ : j ∈ listFilter { name := m.name, ns := "", type := "" } items :=
          (hmem j).mpr ⟨hj, hjname⟩
        have hany2 : (listFilter { name := m.name, ns := "", type := "" } items).any
            (fun k => k.watchedNamespace == "" || m.watchedNamespace == k.watchedNamespace) = true := by
          rw [List.any_eq_true]
          refine ⟨j, hmemJ, ?_⟩
          rcases hjw with h1 | h2
          · simp [h1]
          · simp [h2]
        simp [Validate, hempty, hany, hw, hany2]
  · rintro ⟨i, hi, hiname⟩ hnodup hw hall
    have hmemI : i ∈ listFilter { name := m.name, ns := "", type := "" } items :=
      (hmem i).mpr ⟨hi, hiname⟩
    have hempty : (listFilter { name := m.name, ns := "", type := "" } items).isEmpty = false := by
      rw [List.isEmpty_eq_false]
      exact fun hnil => by simp [hnil] at hmemI
    have hany : (listFilter { name := m.name, ns := "", type := "" } items).any
        (fun j => j.ns == m.ns) = false := by
      rw [Bool.eq_false_iff, ne_eq, List.any_eq_true]
      rintro ⟨j, hj, hjns⟩
      rw [beq_iff_eq] at hjns
      exact hnodup j ((hmem j).mp hj).1 ((hmem j).mp hj).2 hjns
    have hany2 : (listFilter { name := m.name, ns := "", type := "" } items).any
        (fun k => k.watchedNamespace == "" || m.watchedNamespace == k.watchedNamespace) = false := by
      rw [Bool.eq_false_iff, ne_eq, List.any_eq_true]
      rintro ⟨j, hj, hjw⟩
      have hjprops := hall j ((hmem j).mp hj).1 ((hmem j).mp hj).2
      rw [Bool.or_eq_true, beq_iff_eq, beq_iff_eq] at hjw
      rcases hjw with h1 | h2
      · exact hjprops.1 h1
      · exact hjprops.2 h2.symm
    simp [Validate, hempty, hany, hw, hany2]

/-- C2 (witness for the amended theorem): with a same-Name same-Namespace
record present, `Validate` fails with the duplicate-install error. -/
theorem validate_characterization_witness :
    Validate
      { name := "p1", ns := "n1", type := "t", version := "v1",
        watchedNamespace := "n1", resourceVersion := "" }
      [{ name := "p1", ns := "n1", type := "t", version := "v1",
         watchedNamespace := "n1", resourceVersion := "" }] = .error .duplicateInstall :=
  (validate_characterization
    { name := "p1", ns := "n1", type := "t", version := "v1",
      watchedNamespace := "n1", resourceVersion := "" }
    [{ name := "p1", ns := "n1", type := "t", version := "v1",
       watchedNamespace := "n1", resourceVersion := "" }]
    (by decide)).2.1 (by decide)

theorem nodup_all_eq_singleton (l : List String) (v : String) (hnd : l.Nodup)
    (hne : l ≠ []) (hall : ∀ x ∈ l, x = v) : l = [v] := by
  match l with
  | [] => exact absurd rfl hne
  | [x] => rw [hall x (by simp)]
  | x :: y :: t =>
    exfalso
    have hx := hall x (by simp)
    have hy := hall y (by simp)
    rw [List.nodup_cons] at hnd
    exact hnd.1 (by simp [hx, hy])

theorem uniqueValue_const (vals : List String) (v : String) (hne : vals ≠ [])
    (hall : ∀ x ∈ vals, x = v) : uniqueValue vals = v := by
  have hd : vals.dedup = [v] :=
    nodup_all_eq_singleton _ v vals.nodup_dedup
      (by rwa [ne_eq, List.dedup_eq_nil]) (fun x hx => hall x (List.mem_dedup.mp hx))
  simp [uniqueValue, hd]

theorem uniqueValue_ambiguous (vals : List String) (x y : String) (hx : x ∈ vals)
    (hy : y ∈ vals) (hxy : x ≠ y) : uniqueValue vals = "" := by
  unfold uniqueValue
  rcases hde : vals.dedup with _ | ⟨a, _ | ⟨b, t⟩⟩
  · rfl
  · exfalso
    have hx' : x ∈ vals.dedup := List.mem_dedup.mpr hx
    have hy' : y ∈ vals.dedup := List.mem_dedup.mpr hy
    rw [hde] at hx' hy'
    simp at hx' hy'
    exact hxy (hx'.trans hy'.symm)
  · rfl

/-- C9: each of the three default resolvers returns the unique distinct value
of its target attribute among the records its filter keeps (even if several
records carry it), and returns the empty string when the filter keeps no
record or when two kept records disagree on the attribute. -/
theorem getDefault_resolvers_spec :
    (∀ (items : List Provider) (t v : String),
      listFilter { name := "", ns := "", type := t } items ≠ [] →
      (∀ i ∈ listFilter { name := "", ns := "", type := t } items, i.name = v) →
      GetDefaultProviderName items t = v) ∧
    (∀ (items : List Provider) (t : String),
      listFilter { name := "", ns := "", type := t } items = [] →
      GetDefaultProviderName items t = "") ∧
    (∀ (items : List Provider) (t : String),
      ∀ i ∈ listFilter { name := "", ns := "", type := t } items,
      ∀ j ∈ listFilter { name := "", ns := "", type := t } items,
      i.name ≠ j.name → GetDefaultProviderName items t = "") ∧
    (∀ (items : List Provider) (p v : String),
      listFilter { name := p, ns := "", type := "" } items ≠ [] →
      (∀ i ∈ listFilter { name := p, ns := "", type := "" } items, i.version = v) →
      GetDefaultProviderVersion items p = v) ∧
    (∀ (items : List Provider) (p : String),
      listFilter { name := p, ns := "", type := "" } items = [] →
      GetDefaultProviderVersion items p = "") ∧
    (∀ (items : List Provider) (p : String),
      ∀ i ∈ listFilter { name := p, ns := "", type := "" } items,
      ∀ j ∈ listFilter { name := p, ns := "", type := "" } items,
      i.version ≠ j.version → GetDefaultProviderVersion items p = "") ∧
    (∀ (items : List Provider) (p v : String),
      listFilter { name := p, ns := "", type := "" } items ≠ [] →
      (∀ i ∈ listFilter { name := p, ns := "", type := "" } items, i.ns = v) →
      GetDefaultProviderNamespace items p = v) ∧
    (∀ (items : List Provider) (p : String),
      listFilter { name := p, ns := "", type := "" } items = [] →
      GetDefaultProviderNamespace items p = "") ∧
    (∀ (items : List Provider) (p : String),
      ∀ i ∈ listFilter { name := p, ns := "", type := "" } items,
      ∀ j ∈ listFilter { name := p, ns := "", type := "" } items,
      i.ns ≠ j.ns → GetDefaultProviderNamespace items p = "") := by
  have hconst : ∀ (attr : Provider → String) (l : List Provider) (v : String),
      l ≠ [] → (∀ i ∈ l, attr i = v) → uniqueValue (l.map attr) = v := by
    intro attr l v hne hall
    refine uniqueValue_const _ v (by simpa using hne) ?_
    intro x hx
    rcases List.mem_map.mp hx with ⟨i, hi, rfl⟩
    exact hall i hi
  have hnil : ∀ (attr : Provider → String) (l : List Provider),
      l = [] → uniqueValue (l.map attr) = "" := by
    intro attr l hl
    subst hl
    rfl
  have hamb : ∀ (attr : Provider → String) (l : List Provider) (i j : Provider),
      i ∈ l → j ∈ l → attr i ≠ attr j → uniqueValue (l.map attr) = "" := by
    intro attr l i j hi hj hij
    exact uniqueValue_ambiguous _ (attr i) (attr j)
      (List.mem_map_of_mem attr hi) (List.mem_map_of_mem attr hj) hij
  exact ⟨fun items t v hne hall => hconst _ _ v hne hall,
         fun items t hl => hnil _ _ hl,
         fun items t i hi j hj hij => hamb _ _ i j hi hj hij,
         fun items p v hne hall => hconst _ _ v hne hall,
         fun items p hl => hnil _ _ hl,
         fun items p i hi j hj hij => hamb _ _ i j hi hj hij,
         fun items p v hne hall => hconst _ _ v hne hall,
         fun items p hl => hnil _ _ hl,
         fun items p i hi j hj hij => hamb _ _ i j hi hj hij⟩

/-- C9 (witness): one installed version across two instances of "p1" is the
default version, while two distinct names of type "t" give no default name. -/
theorem getDefault_resolvers_spec_witness :
    GetDefaultProviderVersion
      [{ name := "p1", ns := "n1", type := "t", version := "v0.4.1",
         watchedNamespace := "n1", resourceVersion := "" },
       { name := "p1", ns := "n2", type := "t", version := "v0.4.1",
         watchedNamespace := "n2", resourceVersion := "" }] "p1" = "v0.4.1" ∧
    GetDefaultProviderName
      [{ name := "p1", ns := "n1", type := "t", version := "v1",
         watchedNamespace := "n1", resourceVersion := "" },
       { name := "p2", ns := "n2", type := "t", version := "v1",
         watchedNamespace := "n2", resourceVersion := "" }] "t" = "" :=
  ⟨getDefault_resolvers_spec.2.2.2.1 _ "p1" "v0.4.1" (by decide) (by decide),
   getDefault_resolvers_spec.2.2.1 _ "t"
     { name := "p1", ns := "n1", type := "t", version := "v1",
       watchedNamespace := "n1", resourceVersion := "" } (by decide)
     { name := "p2", ns := "n2", type := "t", version := "v1",
       watchedNamespace := "n2", resourceVersion := "" } (by decide) (by decide)⟩

/-- C6 (code divergence at a concrete input): for a candidate whose identity
matches the existing record, `Create` updates in place (the store keeps one
record), but the object submitted for update carries the candidate's original
empty ResourceVersion, not the existing record's token "42": the Go code deep
copies `m` before the `m.ResourceVersion = currentProvider.ResourceVersion`
assignment, so the assignment never reaches the submitted object. -/
theorem create_update_drops_resourceVersion :
    Create
      { name := "p1", ns := "n1", type := "t", version := "v0.4.2",
        watchedNamespace := "n1", resourceVersion := "" }
      [{ name := "p1", ns := "n1", type := "t", version := "v0.4.1",
         watchedNamespace := "n1", resourceVersion := "42" }] =
      (.updatedOp
        { name := "p1", ns := "n1", type := "t", version := "v0.4.2",
          watchedNamespace := "n1", resourceVersion := "" },
       [{ name := "p1", ns := "n1", type := "t", version := "v0.4.2",
          watchedNamespace := "n1", resourceVersion := "" }]) ∧
    ("" : String) ≠ "42" := by
  decide

/-! ## Data model: manifest documents

Modelled from the spec: the implementation file `components.go` is not among
the sources (only its test file is), so the document type and the pipeline
functions below are modelled from specification sections 3 and 4.2-4.5 and
from the expected outputs of `components_test.go`. A document keeps only the
fields this core reads or writes. -/

/-- A subject of a role binding: kind, name and optional namespace. -/
structure Subject where
  kind : String
  name : String
  ns : Option String
  deriving DecidableEq, Repr, Inhabited

/-- The `roleRef` field of a role binding. -/
structure RoleRef where
  apiGroup : String
  kind : String
  name : String
  deriving DecidableEq, Repr, Inhabited

/-- A container of a deployment's pod template: its name and argument list. -/
structure Container where
  name : String
  args : List String
  deriving DecidableEq, Repr, Inhabited

/-- Modelled from the spec: a StructuredDocument restricted to the accessed
fields: `kind`, `metadata.name`, `metadata.namespace`, the serialization
artifact `metadata.creationTimestamp: null` (tracked as a presence flag),
`roleRef`, `subjects`, and the pod-template containers of a deployment. -/
structure Doc where
  kind : String
  name : String
  ns : Option String
  creationTimestampNull : Bool
  roleRef : Option RoleRef
  subjects : List Subject
  containers : List Container
  deriving DecidableEq, Repr, Inhabited

/-- A document with no kind; used as the out-of-range default of `docAt`. -/
def emptyDoc : Doc :=
  { kind := "", name := "", ns := none, creationTimestampNull := false,
    roleRef := none, subjects := [], containers := [] }

/-- Positional access into a document list, for stating per-index properties. -/
def docAt (objs : List Doc) (i : Nat) : Doc :=
  objs.getD i emptyDoc

def namespaceKind : String := "Namespace"
def clusterRoleKind : String := "ClusterRole"
def clusterRoleBindingKind : String := "ClusterRoleBinding"
def roleBindingKind : String := "RoleBinding"
def deploymentKind : String := "Deployment"
def controllerContainerName : String := "manager"

/-- The fixed literal marker of the watch-namespace container argument. -/
def namespaceArgMarker : String := "--namespace="

/-- Errors of the manifest pipeline stages modelled here. -/
inductive CompErr where
  | ambiguousNamespace
  | inconsistentWatchScope
  | missingVariables (names : List String)
  deriving DecidableEq, Repr

/-- Modelled from the spec: `inspectTargetNamespace` of `components.go` -
finds the unique Namespace-kind document, if any, and returns its name;
fails when more than one exists; returns the empty string when none exists. -/
def inspectTargetNamespace (objs : List Doc) : Except CompErr String :=
  match objs.filter (fun o => o.kind == namespaceKind) with
  | [] => .ok ""
  | [o] => .ok o.name
  | _ => .error .ambiguousNamespace

/-! ## RBAC rewriting -/

/-- The deterministic renaming of a cluster-scoped access-control object:
the target namespace as a prefix on the original name. -/
def prefixedName (target originalName : String) : String :=
  target ++ "-" ++ originalName

/-- Step 1 of `fixRBAC`: the names of the ClusterRoles defined within the
document set. -/
def definedClusterRoleNames (objs : List Doc) : List String :=
  (objs.filter (fun o => o.kind == clusterRoleKind)).map (fun o => o.name)

/-- Step 4 of `fixRBAC`: a ServiceAccount subject moves to the target
namespace; subjects of any other kind are untouched. -/
def fixSubject (target : String) (s : Subject) : Subject :=
  if s.kind == "ServiceAccount" then { s with ns := some target } else s

/-- Steps 2-3 of `fixRBAC` on a binding's roleRef: the reference is rewritten
to the prefixed name exactly when the referenced name is defined in the set. -/
def fixRoleRef (renamed : List String) (target : String) (r : RoleRef) : RoleRef :=
  if renamed.contains r.name then { r with name := prefixedName target r.name } else r

/-- Modelled from the spec: the per-document case of `fixRBAC` of
`components.go`. ClusterRoles are renamed; ClusterRoleBindings are renamed,
their roleRef resolved against the set, their subjects fixed, and they gain
the `creationTimestamp: null` artifact of the typed round-trip (visible in
the expected outputs of `Test_fixRBAC`); RoleBindings keep their name but get
the same roleRef and subject treatment and the same artifact; every other
document is untouched. -/
def fixRBACDoc (renamed : List String) (target : String) (o : Doc) : Doc :=
  if o.kind == clusterRoleKind then
    { o with name := prefixedName target o.name }
  else if o.kind == clusterRoleBindingKind then
    { o with
      name := prefixedName target o.name,
      creationTimestampNull := true,
      roleRef := o.roleRef.map (fixRoleRef renamed target),
      subjects := o.subjects.map (fixSubject target) }
  else if o.kind == roleBindingKind then
    { o with
      creationTimestampNull := true,
      roleRef := o.roleRef.map (fixRoleRef renamed target),
      subjects := o.subjects.map (fixSubject target) }
  else o

/-- Modelled from the spec: `fixRBAC` of `components.go`. -/
def fixRBAC (objs : List Doc) (target : String) : List Doc :=
  objs.map (fixRBACDoc (definedClusterRoleNames objs) target)

/-! ## Watch-namespace argument handling -/

/-- Whether a container argument carries the watch-namespace marker. -/
def hasNamespaceArg (a : String) : Bool :=
  namespaceArgMarker.data.isPrefixOf a.data

/-- The value carried by the first watch-namespace argument, when present. -/
def argNamespaceValue (args : List String) : Option String :=
  match args.find? hasNamespaceArg with
  | some a => some ⟨a.data.drop namespaceArgMarker.data.length⟩
  | none => none

/-- Modelled from the spec: the argument-list mutation of `fixWatchNamespace`
of `components.go` - an empty value removes the argument if present; a
non-empty value overwrites every present occurrence or appends one. -/
def setNamespaceArg (args : List String) (v : String) : List String :=
  if v == "" then
    args.filter (fun a => !(hasNamespaceArg a))
  else if args.any hasNamespaceArg then
    args.map (fun a => if hasNamespaceArg a then namespaceArgMarker ++ v else a)
  else
    args ++ [namespaceArgMarker ++ v]

/-- The watch-namespace mutation touches only the controller container. -/
def fixContainerWatch (v : String) (c : Container) : Container :=
  if c.name == controllerContainerName then
    { c with args := setNamespaceArg c.args v }
  else c

/-- Modelled from the spec: `fixWatchNamespace` of `components.go` - applies
the argument mutation to every matching container of every matching
deployment. -/
def fixWatchNamespace (objs : List Doc) (v : String) : List Doc :=
  objs.map fun o =>
    if o.kind == deploymentKind then
      { o with containers := o.containers.map (fixContainerWatch v) }
    else o

/-- The controller containers of a document: the containers with the
recognized controller name, when the document is a deployment. -/
def controllerContainers (o : Doc) : List Container :=
  if o.kind == deploymentKind then
    o.containers.filter (fun c => c.name == controllerContainerName)
  else []

/-- All watch-namespace argument values found across matching containers of
matching deployments. -/
def watchValues (objs : List Doc) : List String :=
  objs.flatMap fun o => (controllerContainers o).filterMap (fun c => argNamespaceValue c.args)

/-- Modelled from the spec: `inspectWatchNamespace` of `components.go` -
the empty string when the argument is absent everywhere, the common value
when all found occurrences agree, an error otherwise. -/
def inspectWatchNamespace (objs : List Doc) : Except CompErr String :=
  match watchValues objs with
  | [] => .ok ""
  | v :: rest => if rest.all (fun x => x == v) then .ok v else .error .inconsistentWatchScope

theorem isPrefixOf_append_self (l r : List Char) : l.isPrefixOf (l ++ r) = true := by
  induction l with
  | nil => simp
  | cons a as ih => simp [List.isPrefixOf_cons₂, ih]

theorem hasNamespaceArg_marker_append (v : String) :
    hasNamespaceArg (namespaceArgMarker ++ v) = true := by
  rw [hasNamespaceArg, String.data_append]
  exact isPrefixOf_append_self _ _

theorem argNamespaceValue_marker_append (v : String) :
    argNamespaceValue [namespaceArgMarker ++ v] = some v := by
  rw [argNamespaceValue]
  rw [List.find?_cons_of_pos _ (hasNamespaceArg_marker_append v)]
  have hd : (namespaceArgMarker ++ v).data.drop namespaceArgMarker.data.length = v.data := by
    rw [String.data_append]
    exact List.drop_left _ _
  simp [hd]

theorem find?_filter_out (p : α → Bool) (l : List α) :
    (l.filter (fun a => !(p a))).find? p = none := by
  induction l with
  | nil => rfl
  | cons a as ih =>
    by_cases h : p a = true
    · simp [List.filter_cons, h, ih]
    · rw [Bool.not_eq_true] at h
      simp [List.filter_cons, h, List.find?_cons_of_neg, ih]

theorem argNamespaceValue_setNamespaceArg (args : List String) (v : String) :
    argNamespaceValue (setNamespaceArg args v) = if v = "" then none else some v := by
  by_cases hv : v = ""
  · simp only [hv, setNamespaceArg, beq_self_eq_true, if_pos, if_true]
    rw [argNamespaceValue, find?_filter_out]
  · have hv' : (v == "") = false := by simp [hv]
    rw [setNamespaceArg, hv']
    simp only [Bool.false_eq_true, if_false, if_neg hv]
    by_cases hany : args.any hasNamespaceArg = true
    · rw [if_pos hany]
      induction args with
      | nil => simp at hany
      | cons a as ih =>
        by_cases ha : hasNamespaceArg a = true
        · rw [List.map_cons, if_pos ha, argNamespaceValue,
            List.find?_cons_of_pos _ (hasNamespaceArg_marker_append v)]
          have hd : (namespaceArgMarker ++ v).data.drop namespaceArgMarker.data.length = v.data := by
            rw [String.data_append]
            exact List.drop_left _ _
          simp [hd]
        · have hany' : as.any hasNamespaceArg = true := by
            rw [List.any_cons] at hany
            rcases Bool.or_eq_true_iff.mp hany with h1 | h2
            · exact absurd h1 ha
            · exact h2
          rw [Bool.not_eq_true] at ha
          rw [List.map_cons, if_neg (by simp [ha]), argNamespaceValue,
            List.find?_cons_of_neg _ (by simp [ha])]
          rw [argNamespaceValue] at ih
          exact ih hany'
    · rw [if_neg hany, argNamespaceValue, List.find?_append]
      have hnone : args.find? hasNamespaceArg = none := by
        rw [List.find?_eq_none]
        intro x hx hpx
        exact hany (List.any_eq_true.mpr ⟨x, hx, hpx⟩)
      rw [hnone, Option.none_or, List.find?_cons_of_pos _ (hasNamespaceArg_marker_append v)]
      have hd : (namespaceArgMarker ++ v).data.drop namespaceArgMarker.data.length = v.data := by
        rw [String.data_append]
        exact List.drop_left _ _
      simp [hd]

theorem fixContainerWatch_name (v : String) (c : Container) :
    (fixContainerWatch v c).name = c.name := by
  rw [fixContainerWatch]
  split <;> rfl

theorem mem_watchValues_fix (objs : List Doc) (v : String) (x : String)
    (hx : x ∈ watchValues (fixWatchNamespace objs v)) : v ≠ "" ∧ x = v := by
  rw [watchValues] at hx
  rcases List.mem_flatMap.mp hx with ⟨o', ho', hxo⟩
  rw [fixWatchNamespace] at ho'
  rcases List.mem_map.mp ho' with ⟨o, ho, rfl⟩
  by_cases hk : (o.kind == deploymentKind) = true
  · rw [if_pos hk] at hxo
    rw [controllerContainers] at hxo
    rw [if_pos hk] at hxo
    rcases List.mem_filterMap.mp hxo with ⟨c', hc', hval⟩
    rcases List.mem_filter.mp hc' with ⟨hc'mem, hc'name⟩
    rcases List.mem_map.mp hc'mem with ⟨c, hc, rfl⟩
    rw [fixContainerWatch_name] at hc'name
    rw [fixContainerWatch, if_pos hc'name] at hval
    rw [argNamespaceValue_setNamespaceArg] at hval
    by_cases hv : v = ""
    · rw [if_pos hv] at hval
      exact absurd hval (by simp)
    · rw [if_neg hv] at hval
      exact ⟨hv, (Option.some_inj.mp hval).symm⟩
  · rw [if_neg hk] at hxo
    rw [controllerContainers, if_neg hk] at hxo
    simp at hxo

theorem watchValues_fix_mem (objs : List Doc) (v : String) (hv : v ≠ "")
    (o : Doc) (ho : o ∈ objs) (hk : o.kind = deploymentKind)
    (c : Container) (hc : c ∈ o.containers) (hname : c.name = controllerContainerName) :
    v ∈ watchValues (fixWatchNamespace objs v) := by
  rw [watchValues]
  apply List.mem_flatMap.mpr
  have hkb : (o.kind == deploymentKind) = true := by simp [hk]
  refine ⟨if (o.kind == deploymentKind) = true
            then { o with containers := o.containers.map (fixContainerWatch v) }
            else o, ?_, ?_⟩
  · rw [fixWatchNamespace]
    exact List.mem_map.mpr ⟨o, ho, by rw [if_pos hkb]⟩
  · rw [if_pos hkb, controllerContainers, if_pos hkb]
    apply List.mem_filterMap.mpr
    refine ⟨fixContainerWatch v c, ?_, ?_⟩
    · apply List.mem_filter.mpr
      refine ⟨List.mem_map_of_mem _ hc, ?_⟩
      rw [fixContainerWatch_name]
      simp [hname]
    · have hnb : (c.name == controllerContainerName) = true := by simp [hname]
      rw [fixContainerWatch, if_pos hnb, argNamespaceValue_setNamespaceArg, if_neg hv]

/-- C3 (counterexample): on a document set with no matching deployment the
watch-namespace fix is a no-op, so inspecting after fixing with "x" returns
the empty string, not "x". -/
theorem fixWatch_roundtrip_cex :
    inspectWatchNamespace (fixWatchNamespace [] "x") = .ok "" ∧
    (Except.ok "" : Except CompErr String) ≠ .ok "x" := by
  decide

/-- C3 (amended): for every document set and value v, if v is empty or the
set contains a matching deployment with a matching controller container, then
`inspectWatchNamespace` applied to `fixWatchNamespace docs v` returns v. -/
theorem inspect_fixWatchNamespace_roundtrip (objs : List Doc) (v : String)
    (h : v = "" ∨ ∃ o ∈ objs, o.kind = deploymentKind ∧
          ∃ c ∈ o.containers, c.name = controllerContainerName) :
    inspectWatchNamespace (fixWatchNamespace objs v) = .ok v := by
  by_cases hv : v = ""
  · subst hv
    have hnil : watchValues (fixWatchNamespace objs "") = [] := by
      rw [List.eq_nil_iff_forall_not_mem]
      intro x hx
      exact (mem_watchValues_fix objs "" x hx).1 rfl
    rw [inspectWatchNamespace, hnil]
  · rcases h with h0 | ⟨o, ho, hk, c, hc, hname⟩
    · exact absurd h0 hv
    · have hmem := watchValues_fix_mem objs v hv o ho hk c hc hname
      rcases hwv : watchValues (fixWatchNamespace objs v) with _ | ⟨w, rest⟩
      · rw [hwv] at hmem
        simp at hmem
      · have hw : w = v :=
          (mem_watchValues_fix objs v w (by rw [hwv]; exact List.mem_cons_self w rest)).2
        have hall : rest.all (fun x => x == w) = true := by
          rw [List.all_eq_true]
          intro x hxr
          have hxv : x = v :=
            (mem_watchValues_fix objs v x
              (by rw [hwv]; exact List.mem_cons_of_mem _ hxr)).2
          simp [hxv, hw]
        subst hw
        rw [inspectWatchNamespace, hwv]
        simp [hall]

/-- C3 (witness for the amended theorem): fixing a deployment that already
watches "foo" to watch "bar" round-trips through inspection. -/
theorem inspect_fixWatchNamespace_roundtrip_witness :
    inspectWatchNamespace (fixWatchNamespace
      [{ kind := "Deployment", name := "d", ns := none, creationTimestampNull := false,
         roleRef := none, subjects := [],
         containers := [{ name := "manager", args := ["--namespace=foo"] }] }]
      "bar") = .ok "bar" :=
  inspect_fixWatchNamespace_roundtrip _ "bar"
    (Or.inr ⟨{ kind := "Deployment", name := "d", ns := none, creationTimestampNull := false,
               roleRef := none, subjects := [],
               containers := [{ name := "manager", args := ["--namespace=foo"] }] },
             by decide, by decide,
             { name := "manager", args := ["--namespace=foo"] }, by decide, by decide⟩)

/-! ## RBAC rewriting lemmas -/

theorem docAt_map_lt (f : Doc → Doc) (objs : List Doc) (i : Nat) (h : i < objs.length) :
    docAt (objs.map f) i = f (docAt objs i) := by
  rw [docAt, docAt, List.getD_eq_getElem?_getD, List.getD_eq_getElem?_getD,
    List.getElem?_map, List.getElem?_eq_getElem h]
  rfl

theorem docAt_map_ge (f : Doc → Doc) (objs : List Doc) (i : Nat) (h : ¬ i < objs.length) :
    docAt (objs.map f) i = emptyDoc ∧ docAt objs i = emptyDoc := by
  constructor
  · rw [docAt, List.getD_eq_getElem?_getD, List.getElem?_eq_none (by simpa using h)]
    rfl
  · rw [docAt, List.getD_eq_getElem?_getD, List.getElem?_eq_none (by omega)]
    rfl

theorem definedClusterRoleNames_iff (objs : List Doc) (r : String) :
    (definedClusterRoleNames objs).contains r = true ↔
      ∃ d ∈ objs, d.kind = clusterRoleKind ∧ d.name = r := by
  rw [List.contains_iff_exists_mem_beq]
  simp only [definedClusterRoleNames, List.mem_map, List.mem_filter, beq_iff_eq]
  constructor
  · rintro ⟨x, ⟨d, ⟨hd, hk⟩, rfl⟩, hr⟩
    exact ⟨d, hd, hk, hr.symm⟩
  · rintro ⟨d, hd, hk, hn⟩
    exact ⟨d.name, ⟨d, ⟨hd, by simp [hk]⟩, rfl⟩, hn.symm⟩

theorem subjects_map_forall (target : String) (l : List Subject) :
    List.Forall₂ (fun s s' : Subject =>
        (s.kind = "ServiceAccount" → s' = { s with ns := some target }) ∧
        (s.kind ≠ "ServiceAccount" → s' = s))
      l (l.map (fixSubject target)) := by
  rw [List.forall₂_map_right_iff]
  rw [List.forall₂_same]
  intro s hs
  constructor
  · intro hsa
    rw [fixSubject, if_pos (by simp [hsa])]
  · intro hsa
    rw [fixSubject, if_neg (by simp [hsa])]

/-- C5: `fixRBAC` renames every ClusterRole and ClusterRoleBinding to
`{target}-{originalName}`; it rewrites a binding's roleRef name to the
prefixed name exactly when a ClusterRole of that name is defined within the
set, leaving outside references unchanged; it moves every ServiceAccount
subject to the target namespace while leaving subjects of any other kind
untouched; and it never renames a namespace-scoped RoleBinding. -/
theorem fixRBAC_spec (objs : List Doc) (target : String) (i : Nat) :
    ((docAt objs i).kind = clusterRoleKind ∨ (docAt objs i).kind = clusterRoleBindingKind →
      (docAt (fixRBAC objs target) i).name = target ++ "-" ++ (docAt objs i).name) ∧
    ((docAt objs i).kind = roleBindingKind →
      (docAt (fixRBAC objs target) i).name = (docAt objs i).name) ∧
    ((docAt objs i).kind = clusterRoleBindingKind ∨ (docAt objs i).kind = roleBindingKind →
      ∀ r : RoleRef, (docAt objs i).roleRef = some r →
        ((∃ d ∈ objs, d.kind = clusterRoleKind ∧ d.name = r.name) →
          (docAt (fixRBAC objs target) i).roleRef =
            some { r with name := target ++ "-" ++ r.name }) ∧
        (¬(∃ d ∈ objs, d.kind = clusterRoleKind ∧ d.name = r.name) →
          (docAt (fixRBAC objs target) i).roleRef = some r)) ∧
    ((docAt objs i).kind = clusterRoleBindingKind ∨ (docAt objs i).kind = roleBindingKind →
      List.Forall₂ (fun s s' : Subject =>
          (s.kind = "ServiceAccount" → s' = { s with ns := some target }) ∧
          (s.kind ≠ "ServiceAccount" → s' = s))
        (docAt objs i).subjects (docAt (fixRBAC objs target) i).subjects) := by
  by_cases hi : i < objs.length
  · have heq : docAt (fixRBAC objs target) i =
        fixRBACDoc (definedClusterRoleNames objs) target (docAt objs i) :=
      docAt_map_lt _ objs i hi
    rw [heq]
    have hroleRef : ∀ r : RoleRef, (docAt objs i).roleRef = some r →
        ((∃ d ∈ objs, d.kind = clusterRoleKind ∧ d.name = r.name) →
          (docAt objs i).roleRef.map (fixRoleRef (definedClusterRoleNames objs) target) =
            some { r with name := target ++ "-" ++ r.name }) ∧
        (¬(∃ d ∈ objs, d.kind = clusterRoleKind ∧ d.name = r.name) →
          (docAt objs i).roleRef.map (fixRoleRef (definedClusterRoleNames objs) target) =
            some r) := by
      intro r hr
      rw [hr]
      constructor
      · intro hdef
        have hc : (definedClusterRoleNames objs).contains r.name = true :=
          (definedClusterRoleNames_iff objs r.name).mpr hdef
        simp only [Option.map_some']
        rw [fixRoleRef, if_pos hc, prefixedName]
      · intro hdef
        have hc : (definedClusterRoleNames objs).contains r.name = false := by
          rw [Bool.eq_false_iff]
          exact fun hcc => hdef ((definedClusterRoleNames_iff objs r.name).mp hcc)
        simp only [Option.map_some']
        rw [fixRoleRef, if_neg (by rw [hc]; exact Bool.false_ne_true)]
    by_cases h1 : ((docAt objs i).kind == clusterRoleKind) = true
    · rw [fixRBACDoc, if_pos h1]
      rw [beq_iff_eq] at h1
      refine ⟨fun _ => rfl, ?_, ?_, ?_⟩
      · intro h2
        rw [h1] at h2
        exact absurd h2 (by decide)
      · intro h2
        rcases h2 with h2 | h2 <;> rw [h1] at h2 <;> exact absurd h2 (by decide)
      · intro h2
        rcases h2 with h2 | h2 <;> rw [h1] at h2 <;> exact absurd h2 (by decide)
    · by_cases h2 : ((docAt objs i).kind == clusterRoleBindingKind) = true
      · rw [fixRBACDoc, if_neg (by simp [h1]), if_pos h2]
        exact ⟨fun _ => rfl, fun h3 => absurd h3 (by rw [beq_iff_eq] at h2; rw [h2]; decide),
          fun _ => hroleRef, fun _ => subjects_map_forall target _⟩
      · by_cases h3 : ((docAt objs i).kind == roleBindingKind) = true
        · rw [fixRBACDoc, if_neg (by simp [h1]), if_neg (by simp [h2]), if_pos h3]
          refine ⟨?_, fun _ => rfl, fun _ => hroleRef, fun _ => subjects_map_forall target _⟩
          intro h4
          rcases h4 with h4 | h4
          · exact absurd h4 (by simpa using h1)
          · exact absurd h4 (by simpa using h2)
        · rw [fixRBACDoc, if_neg (by simp [h1]), if_neg (by simp [h2]), if_neg (by simp [h3])]
          refine ⟨?_, fun h4 => rfl, ?_, ?_⟩
          · intro h4
            rcases h4 with h4 | h4
            · exact absurd h4 (by simpa using h1)
            · exact absurd h4 (by simpa using h2)
          · intro h4
            rcases h4 with h4 | h4
            · exact absurd h4 (by simpa using h2)
            · exact absurd h4 (by simpa using h3)
          · intro h4
            rcases h4 with h4 | h4
            · exact absurd h4 (by simpa using h2)
            · exact absurd h4 (by simpa using h3)
  · rcases docAt_map_ge (fixRBACDoc (definedClusterRoleNames objs) target) objs i hi
      with ⟨hfix, horig⟩
    rw [fixRBAC, hfix, horig]
    refine ⟨?_, ?_, ?_, ?_⟩
    · intro h4
      rcases h4 with h4 | h4 <;> exact absurd h4 (by decide)
    · intro h4
      exact absurd h4 (by decide)
    · intro h4
      rcases h4 with h4 | h4 <;> exact absurd h4 (by decide)
    · intro h4
      rcases h4 with h4 | h4 <;> exact absurd h4 (by decide)

/-- C5 (witness): on the Test_fixRBAC inputs, a ClusterRoleBinding named
"foo" whose roleRef "bar" is not defined in the set is renamed to
"target-foo" with its roleRef untouched, and a namespace-scoped RoleBinding
keeps its name. -/
theorem fixRBAC_spec_witness :
    (docAt (fixRBAC
      [{ kind := "ClusterRoleBinding", name := "foo", ns := none,
         creationTimestampNull := false,
         roleRef := some { apiGroup := "", kind := "", name := "bar" },
         subjects := [{ kind := "ServiceAccount", name := "baz", ns := some "baz" },
                      { kind := "User", name := "qux", ns := none }],
         containers := [] }] "target") 0).name = "target-foo" ∧
    (docAt (fixRBAC
      [{ kind := "ClusterRoleBinding", name := "foo", ns := none,
         creationTimestampNull := false,
         roleRef := some { apiGroup := "", kind := "", name := "bar" },
         subjects := [{ kind := "ServiceAccount", name := "baz", ns := some "baz" },
                      { kind := "User", name := "qux", ns := none }],
         containers := [] }] "target") 0).roleRef =
      some { apiGroup := "", kind := "", name := "bar" } ∧
    (docAt (fixRBAC
      [{ kind := "RoleBinding", name := "rb", ns := some "target",
         creationTimestampNull := false, roleRef := none, subjects := [],
         containers := [] }] "target") 0).name = "rb" :=
  ⟨(fixRBAC_spec
      [{ kind := "ClusterRoleBinding", name := "foo", ns := none,
         creationTimestampNull := false,
         roleRef := some { apiGroup := "", kind := "", name := "bar" },
         subjects := [{ kind := "ServiceAccount", name := "baz", ns := some "baz" },
                      { kind := "User", name := "qux", ns := none }],
         containers := [] }] "target" 0).1 (Or.inr (by decide)),
   ((fixRBAC_spec
      [{ kind := "ClusterRoleBinding", name := "foo", ns := none,
         creationTimestampNull := false,
         roleRef := some { apiGroup := "", kind := "", name := "bar" },
         subjects := [{ kind := "ServiceAccount", name := "baz", ns := some "baz" },
                      { kind := "User", name := "qux", ns := none }],
         containers := [] }] "target" 0).2.2.1 (Or.inl (by decide))
      { apiGroup := "", kind := "", name := "bar" } (by decide)).2 (by decide),
   (fixRBAC_spec
      [{ kind := "RoleBinding", name := "rb", ns := some "target",
         creationTimestampNull := false, roleRef := none, subjects := [],
         containers := [] }] "target" 0).2.1 (by decide)⟩

/-- C10: `fixRBAC` turns on the `metadata.creationTimestamp: null`
serialization artifact exactly on ClusterRoleBinding and RoleBinding
documents (the kinds routed through the typed round-trip); a document of any
other kind keeps its artifact flag unchanged, so it never gains the field. -/
theorem fixRBAC_creationTimestamp_artifact (objs : List Doc) (target : String) (i : Nat) :
    (docAt (fixRBAC objs target) i).creationTimestampNull =
      ((docAt objs i).kind == clusterRoleBindingKind ||
       (docAt objs i).kind == roleBindingKind ||
       (docAt objs i).creationTimestampNull) := by
  by_cases hi : i < objs.length
  · have heq : docAt (fixRBAC objs target) i =
        fixRBACDoc (definedClusterRoleNames objs) target (docAt objs i) :=
      docAt_map_lt _ objs i hi
    rw [heq]
    by_cases h1 : ((docAt objs i).kind == clusterRoleKind) = true
    · rw [fixRBACDoc, if_pos h1]
      rw [beq_iff_eq] at h1
      have e1 : (clusterRoleKind == clusterRoleBindingKind) = false := by decide
      have e2 : (clusterRoleKind == roleBindingKind) = false := by decide
      rw [h1, e1, e2]
      simp
    · by_cases h2 : ((docAt objs i).kind == clusterRoleBindingKind) = true
      · rw [fixRBACDoc, if_neg (by simp [h1]), if_pos h2]
        rw [h2]
        simp
      · by_cases h3 : ((docAt objs i).kind == roleBindingKind) = true
        · rw [fixRBACDoc, if_neg (by simp [h1]), if_neg (by simp [h2]), if_pos h3]
          rw [Bool.not_eq_true] at h2
          rw [h2, h3]
          simp
        · rw [fixRBACDoc, if_neg (by simp [h1]), if_neg (by simp [h2]), if_neg (by simp [h3])]
          rw [Bool.not_eq_true] at h2 h3
          rw [h2, h3]
          simp
  · rcases docAt_map_ge (fixRBACDoc (definedClusterRoleNames objs) target) objs i hi
      with ⟨hfix, horig⟩
    rw [fixRBAC, hfix, horig]
    decide

/-! ## Target namespace inspection -/

/-- C8: `inspectTargetNamespace` returns the empty string with no error on a
set with no Namespace-kind document, the document's name when exactly one
exists, and the ambiguous-namespace error when two or more exist. -/
theorem inspectTargetNamespace_spec (objs : List Doc) :
    ((∀ o ∈ objs, o.kind ≠ namespaceKind) → inspectTargetNamespace objs = .ok "") ∧
    (∀ o : Doc, objs.filter (fun d => d.kind == namespaceKind) = [o] →
      inspectTargetNamespace objs = .ok o.name) ∧
    (2 ≤ (objs.filter (fun d => d.kind == namespaceKind)).length →
      inspectTargetNamespace objs = .error .ambiguousNamespace) := by
  refine ⟨?_, ?_, ?_⟩
  · intro h
    have hnil : objs.filter (fun d => d.kind == namespaceKind) = [] := by
      rw [List.filter_eq_nil_iff]
      intro d hd
      simp [h d hd]
    rw [inspectTargetNamespace, hnil]
  · intro o ho
    rw [inspectTargetNamespace, ho]
  · intro h2
    rcases hf : objs.filter (fun d => d.kind == namespaceKind) with _ | ⟨a, _ | ⟨b, t⟩⟩
    · rw [hf] at h2
      simp at h2
    · rw [hf] at h2
      simp at h2
    · rw [inspectTargetNamespace, hf]

/-- C8 (witness): zero, one and two Namespace documents give the three
claimed outcomes. -/
theorem inspectTargetNamespace_spec_witness :
    inspectTargetNamespace [] = .ok "" ∧
    inspectTargetNamespace
      [{ kind := "Namespace", name := "foo", ns := none, creationTimestampNull := false,
         roleRef := none, subjects := [], containers := [] }] = .ok "foo" ∧
    inspectTargetNamespace
      [{ kind := "Namespace", name := "foo", ns := none, creationTimestampNull := false,
         roleRef := none, subjects := [], containers := [] },
       { kind := "Namespace", name := "bar", ns := none, creationTimestampNull := false,
         roleRef := none, subjects := [], containers := [] }] = .error .ambiguousNamespace :=
  ⟨(inspectTargetNamespace_spec []).1 (by decide),
   (inspectTargetNamespace_spec
      [{ kind := "Namespace", name := "foo", ns := none, creationTimestampNull := false,
         roleRef := none, subjects := [], containers := [] }]).2.1
      { kind := "Namespace", name := "foo", ns := none, creationTimestampNull := false,
        roleRef := none, subjects := [], containers := [] } (by decide),
   (inspectTargetNamespace_spec
      [{ kind := "Namespace", name := "foo", ns := none, creationTimestampNull := false,
         roleRef := none, subjects := [], containers := [] },
       { kind := "Namespace", name := "bar", ns := none, creationTimestampNull := false,
         roleRef := none, subjects := [], containers := [] }]).2.2 (by decide)⟩

/-! ## Variable placeholders -/

/-- An identifier character of a placeholder name. -/
def isIdentChar (c : Char) : Bool :=
  c.isAlphanum || c == '_'

/-- Modelled from the spec: parsing one placeholder marker `${`, optional
whitespace, identifier, optional whitespace, `}` at the head of the character
list; returns the normalized bare name and the rest after the closing
brace. -/
def parsePlaceholder (cs : List Char) : Option (String × List Char) :=
  match cs with
  | '$' :: b :: rest =>
    if b == '\x7b' then
      let afterOpen := rest.dropWhile Char.isWhitespace
      let nameChars := afterOpen.takeWhile isIdentChar
      let afterName := afterOpen.dropWhile isIdentChar
      match afterName.dropWhile Char.isWhitespace with
      | cl :: rest2 =>
        if cl == '\x7d' && !nameChars.isEmpty then some (⟨nameChars⟩, rest2) else none
      | [] => none
    else none
  | _ => none

/-- Modelled from the spec: the left-to-right placeholder scan underlying
`inspectVariables`, fuel-bounded by the text length (each step consumes at
least one character). -/
def scanVariables : Nat → List Char → List String
  | 0, _ => []
  | _ + 1, [] => []
  | fuel + 1, c :: cs =>
    match parsePlaceholder (c :: cs) with
    | some (name, rest) => name :: scanVariables fuel rest
    | none => scanVariables fuel cs

/-- First-appearance deduplication of the scanned names. -/
def dedupKeepFirst : List String → List String :=
  go []
where
  go (seen : List String) : List String → List String
    | [] => []
    | x :: xs => if seen.contains x then go seen xs else x :: go (x :: seen) xs

/-- Modelled from the spec: `inspectVariables` of `components.go` - each
distinct placeholder name once, in order of first appearance, normalized to
the bare identifier. -/
def inspectVariables (data : String) : List String :=
  dedupKeepFirst (scanVariables data.data.length data.data)

theorem dedupKeepFirst_go_spec (l : List String) : ∀ seen : List String,
    (dedupKeepFirst.go seen l).Nodup ∧
    ∀ x ∈ dedupKeepFirst.go seen l, seen.contains x = false := by
  induction l with
  | nil =>
    intro seen
    exact ⟨List.nodup_nil, by simp [dedupKeepFirst.go]⟩
  | cons a as ih =>
    intro seen
    by_cases h : seen.contains a = true
    · rw [dedupKeepFirst.go, if_pos h]
      exact ih seen
    · rw [dedupKeepFirst.go, if_neg h]
      rcases ih (a :: seen) with ⟨hnd, hout⟩
      refine ⟨List.nodup_cons.mpr ⟨?_, hnd⟩, ?_⟩
      · intro hmem
        have := hout a hmem
        simp at this
      · intro x hx
        rcases List.mem_cons.mp hx with rfl | hx'
        · exact Bool.not_eq_true _ |>.mp h
        · have := hout x hx'
          rw [List.contains_cons] at this
          rcases Bool.or_eq_false_iff.mp this with ⟨h1, h2⟩
          exact h2

/-- C7: `inspectVariables` returns each distinct placeholder name at most
once (the result has no duplicates, for every input text), and on the two
reference texts it returns the names in order of first appearance,
normalized to the bare identifier regardless of internal whitespace. -/
theorem inspectVariables_spec :
    (∀ data : String, (inspectVariables data).Nodup) ∧
    inspectVariables "${A} ${ B} ${ C} ${ D }" = ["A", "B", "C", "D"] ∧
    inspectVariables "${A} ${A} ${A}" = ["A"] := by
  refine ⟨?_, by decide, by decide⟩
  intro data
  exact (dedupKeepFirst_go_spec (scanVariables data.data.length data.data) []).1

/-! ## Variable substitution -/

/-- Modelled from the spec: literal replacement of every `${ key }`
placeholder occurrence (arbitrary internal whitespace) by `val`, scanning
left to right; replacement text is emitted without rescanning, and
placeholders of other names are left for their own pass. -/
def substituteKey (key val : String) : Nat → List Char → List Char
  | 0, cs => cs
  | _ + 1, [] => []
  | fuel + 1, c :: cs =>
    match parsePlaceholder (c :: cs) with
    | some (name, rest) =>
      if name == key then val.data ++ substituteKey key val fuel rest
      else c :: substituteKey key val fuel cs
    | none => c :: substituteKey key val fuel cs

/-- One full-text replacement pass for a single variable. -/
def replaceOne (text key val : String) : String :=
  ⟨substituteKey key val text.data.length text.data⟩

/-- The variable source capability `Get(name) -> (value, found)`, as an
association list. -/
def lookupVar (cfg : List (String × String)) (k : String) : Option String :=
  (cfg.find? (fun p => p.fst == k)).map (fun p => p.snd)

/-- Modelled from the spec: `replaceVariables` of `components.go` - resolves
every listed name against the source; if any name is unresolvable, fails
with an error naming all missing variables and returns no text at all;
otherwise substitutes every occurrence of every listed placeholder. -/
def replaceVariables (yaml : String) (names : List String)
    (cfg : List (String × String)) : Except CompErr String :=
  let missingVariables := names.filter (fun k => (lookupVar cfg k).isNone)
  if missingVariables.isEmpty then
    .ok (names.foldl (fun text k => replaceOne text k ((lookupVar cfg k).getD "")) yaml)
  else
    .error (.missingVariables missingVariables)

/-- C4: when any listed name has no value, `replaceVariables` fails with an
error naming exactly the missing variables (all of them) and carries no
partially substituted text; when every name resolves it succeeds; on the
reference inputs it performs the full find/replace, including repeated
occurrences and varying internal whitespace, and reports both missing names
of the failing input. -/
theorem replaceVariables_spec :
    (∀ (yaml : String) (names : List String) (cfg : List (String × String)),
      (∃ k ∈ names, lookupVar cfg k = none) →
      ∃ ms, replaceVariables yaml names cfg = .error (.missingVariables ms) ∧
        ∀ k, k ∈ ms ↔ k ∈ names ∧ lookupVar cfg k = none) ∧
    (∀ (yaml : String) (names : List String) (cfg : List (String × String)),
      (∀ k ∈ names, (lookupVar cfg k).isSome) →
      ∃ s, replaceVariables yaml names cfg = .ok s) ∧
    replaceVariables "foo ${ BAR }" ["BAR"] [("BAR", "bar")] = .ok "foo bar" ∧
    replaceVariables "foo ${ BAR } ${ BAZ }" ["BAR", "BAZ"] [] =
      .error (.missingVariables ["BAR", "BAZ"]) ∧
    replaceVariables "x ${A} y ${ A } z ${A }" ["A"] [("A", "v")] = .ok "x v y v z v" := by
  refine ⟨?_, ?_, by decide, by decide, by decide⟩
  · intro yaml names cfg hex
    rcases hex with ⟨k, hk, hnone⟩
    have hmem : k ∈ names.filter (fun k => (lookupVar cfg k).isNone) :=
      List.mem_filter.mpr ⟨hk, by simp [hnone]⟩
    have hne : (names.filter (fun k => (lookupVar cfg k).isNone)).isEmpty = false := by
      rw [List.isEmpty_eq_false]
      exact fun hnil => by simp [hnil] at hmem
    refine ⟨names.filter (fun k => (lookupVar cfg k).isNone), ?_, ?_⟩
    · rw [replaceVariables]
      simp [hne]
    · intro k'
      rw [List.mem_filter]
      simp [Option.isNone_iff_eq_none]
  · intro yaml names cfg hall
    have hnil : names.filter (fun k => (lookupVar cfg k).isNone) = [] := by
      rw [List.filter_eq_nil_iff]
      intro k hk
      rcases Option.isSome_iff_exists.mp (hall k hk) with ⟨v, hv⟩
      simp [hv]
    rw [replaceVariables]
    simp [hnil]

/-- C4 (witness): a variable absent from an empty source is reported among
the missing names, and a resolvable list succeeds. -/
theorem replaceVariables_spec_witness :
    (∃ ms, replaceVariables "foo ${ X }" ["X"] [] = .error (.missingVariables ms) ∧
      ∀ k, k ∈ ms ↔ k ∈ ["X"] ∧ lookupVar [] k = none) ∧
    (∃ s, replaceVariables "foo ${ X }" ["X"] [("X", "x")] = .ok s) :=
  ⟨replaceVariables_spec.1 "foo ${ X }" ["X"] [] ⟨"X", by decide, by decide⟩,
   replaceVariables_spec.2.1 "foo ${ X }" ["X"] [("X", "x")] (by decide)⟩
